import Mathlib

/-!
Verification of the GrayMatter hardware-Trojan detection pipeline:
a shallow embedding of the VCD toggle parser (`sim/backends/iverilog.py`,
`sim/backends/vivado.py`), the Monte-Carlo convergence tracker
(`analysis/monte_carlo/convergence.py`), the baseline model
(`analysis/statistics/baseline_model.py`), the hypothesis engine
(`analysis/inference/hypothesis.py`), the per-signal detector
(`analysis/detector.py`) and the global-activity override of the
analysis driver (`scripts/run_analysis_from_vcd.py`), together with
theorems settling the specification claims.

Modelling conventions: Python floats are modelled as exact rationals
(`ℚ`); `math.sqrt` goes through `ℝ`; Python exceptions are modelled by
`Except String`; Python dicts are modelled by association lists where
insertion prepends and lookup takes the first (most recent) binding.
-/

namespace GrayMatter

/-! ## Python string primitives

Executable models of the Python string operations the parsers use,
written over `List Char` so every definition reduces in the kernel.
`pyStrip` models `str.strip()`, `splitWsStr` models `str.split()` with
no arguments (split on whitespace runs, dropping empty fields),
`strStartsWith` models `str.startswith`, `strContains` models the
Python `in` substring test. -/

def pyStrip (s : String) : String :=
  String.mk (((s.toList.dropWhile Char.isWhitespace).reverse.dropWhile
    Char.isWhitespace).reverse)

def splitWsAux : List Char → List Char → List (List Char)
  | [], acc => if acc = [] then [] else [acc.reverse]
  | c :: t, acc =>
      if c.isWhitespace then
        if acc = [] then splitWsAux t [] else acc.reverse :: splitWsAux t []
      else splitWsAux t (c :: acc)

def splitWsStr (s : String) : List String :=
  (splitWsAux s.toList []).map String.mk

def strStartsWith (s p : String) : Bool :=
  p.toList.isPrefixOf s.toList

/-- `needle` occurs as a contiguous run inside `hay`. -/
def listIsInfixOf (needle : List Char) : List Char → Bool
  | [] => needle.isEmpty
  | c :: t => needle.isPrefixOf (c :: t) || listIsInfixOf needle t

def strContains (s sub : String) : Bool :=
  listIsInfixOf sub.toList s.toList

def strTake (s : String) (n : Nat) : String := String.mk (s.toList.take n)

def strDrop (s : String) (n : Nat) : String := String.mk (s.toList.drop n)

/-- Python `int(x)` on a float: truncation toward zero. -/
def pyTrunc (q : ℚ) : ℤ := if 0 ≤ q then ⌊q⌋ else -⌊-q⌋

/-- Round-half-to-even on rationals (the rounding rule of Python's
`round`; binary floating-point representation artifacts are outside the
model, which treats values as exact). -/
def roundHalfEven (q : ℚ) : ℤ :=
  let f := ⌊q⌋
  let r := q - (f : ℚ)
  if r < 1/2 then f
  else if 1/2 < r then f + 1
  else if f % 2 = 0 then f else f + 1

/-- Python `round(q, nd)`. -/
def pyRound (q : ℚ) (nd : ℕ) : ℚ :=
  (roundHalfEven (q * 10 ^ nd) : ℚ) / 10 ^ nd

/-! ## VCD parser

Embedding of `IcarusBackend._parse_vcd` (`sim/backends/iverilog.py`,
lines 174-285).  `VivadoBackend._parse_vcd` (`sim/backends/vivado.py`,
lines 218-293) is line-for-line the same algorithm (it only omits the
unused `last_clock_value` bookkeeping), so one embedding serves both.

The Python `last_value` dict stores `None` for declared-but-unseen
symbols, and `dict.get` returns `None` both for those and for absent
keys; the only reads go through `.get`, so the embedding keeps only
real values in the association list.  `id_to_signal` is written but
never read and is omitted. -/

structure VcdBodyState where
  lastValue : List (String × String)
  totalToggles : Nat
  cycles : Nat
deriving DecidableEq, Repr

/-- Classification of one (already stripped) body line, following the
branch structure of the Python loop: blank and `#`-timestamp lines are
skipped; a line whose first character is `0`/`1`/`x`/`z` is a scalar
record (value = first character, symbol = rest); a line starting with
`b` is a vector record split on whitespace (`IndexError` when there is
no second token, i.e. `parts[1]` is out of range); anything else is
skipped by the final `else: continue`. -/
inductive BodyClass where
  | skip
  | record (value sid : String)
  | badVector
deriving DecidableEq, Repr

def classifyBodyLine (l : String) : BodyClass :=
  if l = "" || strStartsWith l "#" then .skip
  else if strStartsWith l "0" || strStartsWith l "1" ||
          strStartsWith l "x" || strStartsWith l "z" then
    .record (strTake l 1) (strDrop l 1)
  else if strStartsWith l "b" then
    match splitWsStr l with
    | p0 :: p1 :: _ => .record (strDrop p0 1) p1
    | _ => .badVector
  else .skip

/-- One body-loop iteration of `_parse_vcd`: strip the line, classify,
then (for a record) read the previous value, count a toggle when a
previous value exists and differs, count a clock cycle on a `0 → 1`
transition of the clock symbol, and store the new value. -/
def processBodyLine (clockId : String) (st : VcdBodyState) (line : String) :
    Except String VcdBodyState :=
  match classifyBodyLine (pyStrip line) with
  | .skip => .ok st
  | .badVector => .error "IndexError"
  | .record value sid =>
      let prev := st.lastValue.lookup sid
      let toggles :=
        match prev with
        | some p => if p ≠ value then st.totalToggles + 1 else st.totalToggles
        | none => st.totalToggles
      let cyc :=
        if sid = clockId ∧ prev = some "0" ∧ value = "1" then st.cycles + 1
        else st.cycles
      .ok { lastValue := (sid, value) :: st.lastValue
            totalToggles := toggles
            cycles := cyc }

/-- Header phase of `_parse_vcd`: consume lines while `in_definitions`,
binding `$var` declarations (`parts[3]` = symbol, `parts[4]` = name;
fewer tokens raise `IndexError`), until the `$enddefinitions $end`
line, at which point the clock name is resolved (error if undeclared)
and the remaining lines form the body.  If the input ends while still
in the header, no body line is ever processed, so `cycles` stays `0`
and the Python function ends with the `No clock cycles` error; the
embedding returns that error directly. -/
def findEnd (clockName : String) :
    List String → List (String × String) →
    Except String (String × List String)
  | [], _ => .error "No clock cycles detected; check clock name and VCD"
  | line :: rest, sigMap =>
      let l := pyStrip line
      let step : Except String (List (String × String)) :=
        if strStartsWith l "$var" then
          match splitWsStr l with
          | _ :: _ :: _ :: sid :: name :: _ => .ok ((name, sid) :: sigMap)
          | _ => .error "IndexError"
        else .ok sigMap
      match step with
      | .error e => .error e
      | .ok m =>
          if l = "$enddefinitions $end" then
            match m.lookup clockName with
            | some cid => .ok (cid, rest)
            | none => .error "Clock signal not found in VCD"
          else findEnd clockName rest m

/-- `_parse_vcd` over an in-memory list of lines: header phase, body
fold, final `cycles = 0` check.  Returns `(total_toggles, cycles)`. -/
def parseVcd (lines : List String) (clockName : String) :
    Except String (Nat × Nat) := do
  let (clockId, body) ← findEnd clockName lines []
  let st ← body.foldlM (processBodyLine clockId) ⟨[], 0, 0⟩
  if st.cycles = 0 then
    .error "No clock cycles detected; check clock name and VCD"
  else
    .ok (st.totalToggles, st.cycles)

/-! ## ConvergenceTracker

Embedding of `analysis/monte_carlo/convergence.py`.  Scalar samples are
exact rationals.  `stable_batches` is modelled as `ℕ` (the constructor
rejects non-positive values, so only the `= 0` case of Python's
`<= 0` check is reachable over `ℕ`). -/

structure ConvergenceTracker where
  mean_eps : ℚ
  var_eps : ℚ
  stable_batches_required : ℕ
  count : ℕ
  mean : ℚ
  m2 : ℚ
  prev_mean : Option ℚ
  prev_variance : Option ℚ
  stable_count : ℕ
deriving DecidableEq, Repr

/-- The freshly-initialized running state of `ConvergenceTracker.__init__`. -/
def freshTracker (mean_eps var_eps : ℚ) (stable_batches : ℕ) :
    ConvergenceTracker :=
  ⟨mean_eps, var_eps, stable_batches, 0, 0, 0, none, none, 0⟩

/-- `ConvergenceTracker.__init__` with its configuration validation. -/
def ConvergenceTracker.create (mean_eps var_eps : ℚ) (stable_batches : ℕ) :
    Except String ConvergenceTracker :=
  if mean_eps ≤ 0 ∨ var_eps ≤ 0 then
    .error "Convergence tolerances must be positive"
  else if stable_batches ≤ 0 then
    .error "stable_batches must be positive"
  else
    .ok (freshTracker mean_eps var_eps stable_batches)

/-- `ConvergenceTracker.update`: Welford single-pass update. -/
def ConvergenceTracker.update (t : ConvergenceTracker) (value : ℚ) :
    ConvergenceTracker :=
  let count := t.count + 1
  let delta := value - t.mean
  let mean := t.mean + delta / (count : ℚ)
  let delta2 := value - mean
  { t with count := count, mean := mean, m2 := t.m2 + delta * delta2 }

/-- `ConvergenceTracker.variance` (the Python method raises for fewer
than two samples; every use below is guarded by `2 ≤ count`, matching
the guard in `check_convergence`). -/
def ConvergenceTracker.variance (t : ConvergenceTracker) : ℚ :=
  t.m2 / ((t.count : ℚ) - 1)

/-- `ConvergenceTracker.check_convergence`: returns the boolean result
together with the updated tracker state. -/
def ConvergenceTracker.checkConvergence (t : ConvergenceTracker) :
    Bool × ConvergenceTracker :=
  if t.count < 2 then (false, t)
  else
    let current_mean := t.mean
    let current_variance := t.variance
    match t.prev_mean, t.prev_variance with
    | some pm, some pv =>
        let stable :=
          if |current_mean - pm| < t.mean_eps ∧ |current_variance - pv| < t.var_eps
          then t.stable_count + 1 else 0
        (decide (t.stable_batches_required ≤ stable),
         { t with prev_mean := some current_mean
                  prev_variance := some current_variance
                  stable_count := stable })
    | _, _ =>
        (false,
         { t with prev_mean := some current_mean
                  prev_variance := some current_variance
                  stable_count := 0 })

/-- A call trace against one tracker: interleaved `update` and
`check_convergence` calls. -/
inductive TrackerOp where
  | update (value : ℚ)
  | check
deriving DecidableEq, Repr

def runOps (t : ConvergenceTracker) : List TrackerOp → ConvergenceTracker
  | [] => t
  | .update v :: rest => runOps (t.update v) rest
  | .check :: rest => runOps (t.checkConvergence).2 rest

/-- The samples fed by a trace. -/
def updatesOf (ops : List TrackerOp) : List ℚ :=
  ops.filterMap fun op =>
    match op with
    | .update v => some v
    | .check => none

/-- Direct (specification-level) arithmetic mean. -/
def meanSpec (xs : List ℚ) : ℚ := xs.sum / (xs.length : ℚ)

/-- Sum of squared deviations from a center `c`. -/
def sqDevSum (xs : List ℚ) (c : ℚ) : ℚ :=
  (xs.map fun x => (x - c) ^ 2).sum

/-- Direct two-pass sum of squared deviations from the mean. -/
def m2Spec (xs : List ℚ) : ℚ := sqDevSum xs (meanSpec xs)

/-- Direct two-pass sample variance with the `N−1` divisor. -/
def varSpec (xs : List ℚ) : ℚ := m2Spec xs / ((xs.length : ℚ) - 1)

/-- The `(mean, variance)` checkpoints recorded by the usable checks of
a trace (a check is usable when at least two samples have been fed),
most recent first; `s` accumulates the samples fed so far and `h` the
checkpoints recorded so far. -/
def histAux : List TrackerOp → List ℚ → List (ℚ × ℚ) → List (ℚ × ℚ)
  | [], _, h => h
  | .update v :: rest, s, h => histAux rest (s ++ [v]) h
  | .check :: rest, s, h =>
      histAux rest s (if 2 ≤ s.length then (meanSpec s, varSpec s) :: h else h)

def histSpec (ops : List TrackerOp) : List (ℚ × ℚ) := histAux ops [] []

/-- Specification-level stability streak over a checkpoint history
(most recent first): the length of the maximal run of consecutive
checkpoints each within both tolerances of its predecessor, ending at
the most recent checkpoint; any out-of-tolerance step resets it to 0. -/
def streakSpec (meps veps : ℚ) : List (ℚ × ℚ) → ℕ
  | [] => 0
  | [_] => 0
  | c :: p :: rest =>
      if |c.1 - p.1| < meps ∧ |c.2 - p.2| < veps then
        streakSpec meps veps (p :: rest) + 1
      else 0

/-! ## BaselineModel (global variant)

Embedding of `analysis/statistics/baseline_model.py`.  Python numbers
(int and float compare numerically in Python) are modelled as `ℚ`;
`metadata` is modelled as a string-to-string map, which is all the
code ever stores there. -/

structure BaselineModel where
  mean : ℚ
  variance : ℚ
  samples : ℚ
  converged : Bool
  metadata : List (String × String)
deriving DecidableEq, Repr

/-- Values of the persisted dictionary form. -/
inductive PyVal where
  | num (q : ℚ)
  | bool (b : Bool)
  | meta (m : List (String × String))
deriving DecidableEq, Repr

abbrev PyDict := List (String × PyVal)

/-- Numeric view of a dict value (identity on the numbers the code
actually stores; Python would apply its own coercions elsewhere). -/
def PyVal.asNum : PyVal → ℚ
  | .num q => q
  | .bool b => if b then 1 else 0
  | .meta _ => 0

/-- Python truthiness, as used by `if not converged`. -/
def PyVal.asBool : PyVal → Bool
  | .num q => decide (q ≠ 0)
  | .bool b => b
  | .meta m => decide (m ≠ [])

def PyVal.asMeta : PyVal → List (String × String)
  | .meta m => m
  | _ => []

/-- `BaselineModel.__init__` together with `_validate` (same check
order, same messages). -/
def BaselineModel.create (mean variance samples : ℚ) (converged : Bool)
    (metadata : List (String × String)) : Except String BaselineModel :=
  if samples ≤ 1 then
    .error "Baseline must be estimated from more than one sample"
  else if variance < 0 then
    .error "Variance must be non-negative"
  else if converged = false then
    .error "Baseline model cannot be created without convergence"
  else
    .ok ⟨mean, variance, samples, converged, metadata⟩

/-- `BaselineModel.as_dict`. -/
def BaselineModel.as_dict (m : BaselineModel) : PyDict :=
  [("mean", .num m.mean),
   ("variance", .num m.variance),
   ("samples", .num m.samples),
   ("converged", .bool m.converged),
   ("metadata", .meta m.metadata)]

def requiredFields : List String :=
  ["mean", "variance", "samples", "converged", "metadata"]

def dictGet (d : PyDict) (k : String) : PyVal := (d.lookup k).getD (.num 0)

/-- `BaselineModel.from_dict`: the loop raises on the first required
field that is absent, then construction re-validates. -/
def BaselineModel.from_dict (data : PyDict) : Except String BaselineModel :=
  match requiredFields.find? (fun f => (data.lookup f).isNone) with
  | some f => .error ("Missing required field: " ++ f)
  | none =>
      BaselineModel.create (dictGet data "mean").asNum
        (dictGet data "variance").asNum (dictGet data "samples").asNum
        (dictGet data "converged").asBool (dictGet data "metadata").asMeta

/-! ## HypothesisEngine

Embedding of `compute_z_score` from `analysis/inference/hypothesis.py`;
`math.sqrt` is modelled through `ℝ`. -/

/-- `compute_z_score(observed, baseline)` (noncomputable only because
`Real.sqrt` has no executable code; the guard and both branches are
otherwise direct transcriptions). -/
noncomputable def compute_z_score (observed : ℚ) (baseline : BaselineModel) :
    Except String ℝ :=
  if baseline.variance ≤ 0 then
    .error "Baseline variance must be positive to compute Z-score"
  else
    .ok (((observed : ℝ) - (baseline.mean : ℝ)) /
      Real.sqrt (baseline.variance : ℝ))

/-! ## Per-signal detector

Embedding of `run_detector` from `analysis/detector.py`.  The baseline
map and the observed map are association lists (Python dict iteration
order = insertion order = list order).  Baseline entries model the
per-signal dicts, whose keys are read defensively with `.get`; the
`iqr_threshold` default `float("inf")` is modelled by `none` in the
effective threshold (`obs > inf` is always false).  The aggregate
`statistics` block (numpy mean/median/std/max over the `deviations`
list) and the constant `thresholds` echo dict are not part of the
embedding; no claim refers to them.  The debug printing is pure
output and is likewise omitted. -/

structure BaselineEntry where
  mean : Option ℚ
  std : Option ℚ
  iqr_threshold : Option ℚ
  samples : Option (List ℚ)
deriving DecidableEq, Repr

abbrev BaselineMap := List (String × BaselineEntry)

/-- The static signal filter at the top of the per-signal loop:
testbench artifacts and structural Trojan internals are dropped. -/
def signalFiltered (signal : String) : Bool :=
  strStartsWith signal "tb_alu_secure.seed" ||
  strStartsWith signal "tb_alu_secure.result_trojan" ||
  (strContains signal "u_trojan" && !strContains signal "shadow_")

/-- Effective per-signal baseline: `(mean, std, threshold)` where
`threshold = none` encodes `float("inf")`. -/
structure EffBaseline where
  mean : ℚ
  std : ℚ
  threshold : Option ℚ
deriving DecidableEq, Repr

/-- Baseline handling of the loop: a signal absent from the baseline
map gets the zero substitute `{mean 0, std 0, threshold 0}` (and
contributes `0.0` to `baseline_samples`); a present signal gets its
entry's fields with the `.get` defaults (and contributes its stored
samples).  Returns the effective baseline and the `baseline_samples`
contribution. -/
def effectiveEntry (baseline : BaselineMap) (signal : String) :
    EffBaseline × List ℚ :=
  match baseline.lookup signal with
  | none => (⟨0, 0, some 0⟩, [0])
  | some b => (⟨b.mean.getD 0, b.std.getD 0, b.iqr_threshold⟩, b.samples.getD [])

/-- `obs_val > threshold` with `none` standing for `float("inf")`. -/
def exceedsThreshold (th : Option ℚ) (obs : ℚ) : Bool :=
  match th with
  | none => false
  | some t => decide (t < obs)

/-- The deviation-percentage rule of the loop. -/
def deviationPct (mean obs : ℚ) : ℚ :=
  if 0 < mean then ((obs - mean) / mean) * 100
  else if 0 < obs then 100 else 0

/-- The z-score rule of the loop (`0.0` when `std ≤ 0`). -/
def zScoreOf (mean std obs : ℚ) : ℚ :=
  if 0 < std then (obs - mean) / std else 0

structure Anomaly where
  signal : String
  observed : ℤ
  mean : ℚ
  deviation : ℚ
  z_score : ℚ
  cls : String
  rank : ℕ
deriving DecidableEq, Repr

/-- One iteration of the per-signal loop, producing the anomaly record
appended for this signal, if any.  (`rank` is set later by the ranking
pass; before it, the Python dict simply has no `rank` key, modelled as
`0`.) -/
def anomalyFor (baseline : BaselineMap) (signal : String) (obs : ℚ) :
    Option Anomaly :=
  if signalFiltered signal then none
  else
    let e := (effectiveEntry baseline signal).1
    if exceedsThreshold e.threshold obs then
      some { signal := signal
             observed := pyTrunc obs
             mean := pyRound e.mean 3
             deviation := pyRound (deviationPct e.mean obs) 2
             z_score := pyRound (zScoreOf e.mean e.std obs) 2
             cls := if strContains signal "shadow_" then "trojan_internal"
                    else "propagated"
             rank := 0 }
    else none

/-- The anomaly list in loop order, before ranking. -/
def rawAnomalies (baseline : BaselineMap) (observed : List (String × ℚ)) :
    List Anomaly :=
  observed.filterMap fun p => anomalyFor baseline p.1 p.2

/-- The `baseline_samples` accumulator of the loop. -/
def baselineSamples (baseline : BaselineMap) (observed : List (String × ℚ)) :
    List ℚ :=
  (observed.filter fun p => !signalFiltered p.1).foldr
    (fun p acc => (effectiveEntry baseline p.1).2 ++ acc) []

/-- Stable insertion of `a` in front of the first element with a
strictly smaller sort key (absolute deviation): an executable model of
Python's stable `list.sort(key=..., reverse=True)`. `a` is the element
that came earliest in the original order among those being placed, so
on key ties it goes first. -/
def insertDesc (a : Anomaly) : List Anomaly → List Anomaly
  | [] => [a]
  | b :: t =>
      if |b.deviation| ≤ |a.deviation| then a :: b :: t
      else b :: insertDesc a t

/-- Stable sort, descending by `abs(deviation)` — extensionally equal
to CPython's stable sort with `key=lambda x: abs(x["deviation"])`,
`reverse=True`. -/
def sortAnomalies : List Anomaly → List Anomaly
  | [] => []
  | a :: t => insertDesc a (sortAnomalies t)

/-- `for idx, a in enumerate(anomalies, start=1): a["rank"] = idx`. -/
def assignRanks (i : ℕ) : List Anomaly → List Anomaly
  | [] => []
  | a :: t => { a with rank := i } :: assignRanks (i + 1) t

structure Decision where
  trojan_detected : Bool
  primary_signal : Option String
  primary_deviation : Option ℚ
  threshold : String
  z_score : Option ℚ
  confidence : String
deriving DecidableEq, Repr

structure DetectorResult where
  total_signals : ℕ
  baseline_samples : List ℚ
  observed_samples : List ℚ
  anomalies : List Anomaly
  decision : Decision
deriving DecidableEq, Repr

/-- `run_detector(baseline, observed)`. -/
def runDetector (baseline : BaselineMap) (observed : List (String × ℚ)) :
    DetectorResult :=
  let anoms := assignRanks 1 (sortAnomalies (rawAnomalies baseline observed))
  { total_signals := observed.length
    baseline_samples := baselineSamples baseline observed
    observed_samples := observed.map Prod.snd
    anomalies := anoms
    decision :=
      { trojan_detected := decide (0 < anoms.length)
        primary_signal := anoms.head?.map (·.signal)
        primary_deviation := anoms.head?.map (·.deviation)
        threshold := "per-signal IQR + zero-baseline"
        z_score := anoms.head?.map (·.z_score)
        confidence := if 0 < anoms.length then "high" else "low" } }

/-! ## Global-activity override

Embedding of the positive-control block of `main` in
`scripts/run_analysis_from_vcd.py` (non-clean variants): after
`run_detector`, if the clean global activity is present and the
observed total exceeds `1.5×` it, the decision is forced positive. -/

def applyGlobalOverride (cleanGlobal : Option ℚ) (totalActivity : ℚ)
    (d : Decision) : Decision :=
  match cleanGlobal with
  | none => d
  | some g =>
      if (3 / 2 : ℚ) * g < totalActivity then
        { d with trojan_detected := true
                 confidence := "high"
                 threshold := "global activity (1.5x clean)" }
      else d

/-- The decision produced by the analysis driver for a non-clean
variant: `run_detector` followed by the global-activity override,
where the observed total activity is `sum(toggles.values())`. -/
def analysisDecision (baseline : BaselineMap) (toggles : List (String × ℚ))
    (cleanGlobal : Option ℚ) : Decision :=
  applyGlobalOverride cleanGlobal ((toggles.map Prod.snd).sum)
    (runDetector baseline toggles).decision

/-! ## Theorems -/

/-- Claim C2: for every state reachable on any input event stream, a
parsed value-change record increments the total toggle count by exactly
one if and only if a previous value exists for its symbol and differs
from the new value; in particular the first observed value of a symbol
(no previous value) never counts as a toggle, and no record ever adds
more than one. -/
theorem vcd_toggle_iff_prev_differs (clockId : String) (st : VcdBodyState)
    (line v sid : String) (st' : VcdBodyState)
    (hc : classifyBodyLine (pyStrip line) = .record v sid)
    (hr : processBodyLine clockId st line = .ok st') :
    (st'.totalToggles = st.totalToggles + 1 ↔
      ∃ p, st.lastValue.lookup sid = some p ∧ p ≠ v) ∧
    (st.lastValue.lookup sid = none → st'.totalToggles = st.totalToggles) ∧
    (st'.totalToggles = st.totalToggles ∨
      st'.totalToggles = st.totalToggles + 1) := by
  unfold processBodyLine at hr
  rw [hc] at hr
  dsimp only at hr
  cases hprev : st.lastValue.lookup sid with
  | none =>
      rw [hprev] at hr
      simp only [Except.ok.injEq] at hr
      subst hr
      dsimp only
      refine ⟨⟨fun h => absurd h (by omega), ?_⟩, fun _ => rfl, Or.inl rfl⟩
      rintro ⟨p', hp', -⟩
      exact Option.noConfusion hp'
  | some p =>
      rw [hprev] at hr
      by_cases hpv : p = v
      · subst hpv
        simp only [Except.ok.injEq] at hr
        rw [if_neg (fun h => h rfl)] at hr
        subst hr
        dsimp only
        refine ⟨⟨fun h => absurd h (by omega), ?_⟩, fun _ => rfl, Or.inl rfl⟩
        rintro ⟨p', hp', hne⟩
        exact absurd (Option.some.inj hp').symm hne
      · simp only [Except.ok.injEq] at hr
        rw [if_pos hpv] at hr
        subst hr
        dsimp only
        exact ⟨⟨fun _ => ⟨p, rfl, hpv⟩, fun _ => rfl⟩,
          fun h => Option.noConfusion h, Or.inr rfl⟩

theorem vcd_toggle_iff_prev_differs_witness :
    ((⟨[("s", "1"), ("s", "0")], 1, 0⟩ : VcdBodyState).totalToggles =
        (⟨[("s", "0")], 0, 0⟩ : VcdBodyState).totalToggles + 1 ↔
      ∃ p, (⟨[("s", "0")], 0, 0⟩ : VcdBodyState).lastValue.lookup "s" = some p ∧
        p ≠ "1") ∧
    ((⟨[("s", "0")], 0, 0⟩ : VcdBodyState).lastValue.lookup "s" = none →
      (⟨[("s", "1"), ("s", "0")], 1, 0⟩ : VcdBodyState).totalToggles =
        (⟨[("s", "0")], 0, 0⟩ : VcdBodyState).totalToggles) ∧
    ((⟨[("s", "1"), ("s", "0")], 1, 0⟩ : VcdBodyState).totalToggles =
        (⟨[("s", "0")], 0, 0⟩ : VcdBodyState).totalToggles ∨
      (⟨[("s", "1"), ("s", "0")], 1, 0⟩ : VcdBodyState).totalToggles =
        (⟨[("s", "0")], 0, 0⟩ : VcdBodyState).totalToggles + 1) :=
  vcd_toggle_iff_prev_differs "c" ⟨[("s", "0")], 0, 0⟩ "1s" "1" "s"
    ⟨[("s", "1"), ("s", "0")], 1, 0⟩ (by rfl) (by rfl)

/-- Claim C3 (refuted as stated): on this VCD input, the two body
records of the undeclared symbol `?` contribute a toggle to the total
(the count is 2 where the declared clock alone yields 1), and a vector
record `b101` with no symbol token raises an `IndexError` instead of
being skipped. -/
theorem vcd_noise_counterexample :
    parseVcd ["$var wire 1 ! clk $end", "$enddefinitions $end",
      "0!", "1!"] "clk" = .ok (1, 1) ∧
    parseVcd ["$var wire 1 ! clk $end", "$enddefinitions $end",
      "0!", "1!", "1?", "0?"] "clk" = .ok (2, 1) ∧
    parseVcd ["$var wire 1 ! clk $end", "$enddefinitions $end",
      "0!", "1!", "b101"] "clk" = .error "IndexError" :=
  ⟨rfl, rfl, rfl⟩

/-- Claim C3 (amended): the parser skips, without error and without any
state change, every body line that is blank, a timestamp, or otherwise
unclassifiable (first character not `0/1/x/z` and not a `b`-vector); a
body record whose symbol has no recorded previous value — in particular
any first record of a symbol undeclared in the header — is processed
without error and contributes no toggle, but its value is recorded (so
later differing records of the same symbol do count); and a vector
record whose token cannot be split into value and symbol raises an
`IndexError` rather than being skipped. -/
theorem vcd_noise_amended (clockId : String) (st : VcdBodyState)
    (line : String) :
    (classifyBodyLine (pyStrip line) = .skip →
      processBodyLine clockId st line = .ok st) ∧
    (classifyBodyLine (pyStrip line) = .badVector →
      processBodyLine clockId st line = .error "IndexError") ∧
    (∀ v sid, classifyBodyLine (pyStrip line) = .record v sid →
      st.lastValue.lookup sid = none →
      processBodyLine clockId st line =
        .ok ⟨(sid, v) :: st.lastValue, st.totalToggles, st.cycles⟩) := by
  refine ⟨fun h => ?_, fun h => ?_, fun v sid h hprev => ?_⟩
  · unfold processBodyLine; rw [h]
  · unfold processBodyLine; rw [h]
  · unfold processBodyLine
    rw [h]
    simp only [hprev]
    have : ¬(sid = clockId ∧ (none : Option String) = some "0" ∧ v = "1") := by
      rintro ⟨-, h2, -⟩; exact Option.noConfusion h2
    rw [if_neg this]

theorem vcd_noise_amended_witness :
    (processBodyLine "c" ⟨[], 0, 0⟩ "#42" = .ok ⟨[], 0, 0⟩) ∧
    (processBodyLine "c" ⟨[], 0, 0⟩ "b101" = .error "IndexError") ∧
    (processBodyLine "c" ⟨[], 0, 0⟩ "1s" = .ok ⟨[("s", "1")], 0, 0⟩) :=
  ⟨(vcd_noise_amended "c" ⟨[], 0, 0⟩ "#42").1 (by rfl),
   (vcd_noise_amended "c" ⟨[], 0, 0⟩ "b101").2.1 (by rfl),
   (vcd_noise_amended "c" ⟨[], 0, 0⟩ "1s").2.2 "1" "s" (by rfl) (by rfl)⟩

/-! ### Sorting and ranking lemmas for the detector -/

theorem mem_insertDesc {x a : Anomaly} :
    ∀ {l : List Anomaly}, x ∈ insertDesc a l ↔ x = a ∨ x ∈ l := by
  intro l
  induction l with
  | nil => simp [insertDesc]
  | cons b t ih =>
      rw [insertDesc]
      by_cases h : |b.deviation| ≤ |a.deviation|
      · rw [if_pos h]; simp [List.mem_cons]
      · rw [if_neg h]
        simp only [List.mem_cons, ih]
        tauto

theorem mem_sortAnomalies {x : Anomaly} :
    ∀ {l : List Anomaly}, x ∈ sortAnomalies l ↔ x ∈ l := by
  intro l
  induction l with
  | nil => simp [sortAnomalies]
  | cons a t ih =>
      rw [sortAnomalies, mem_insertDesc]
      simp [List.mem_cons, ih]

theorem insertDesc_sorted (a : Anomaly) (l : List Anomaly)
    (hl : l.Pairwise (fun x y => |y.deviation| ≤ |x.deviation|)) :
    (insertDesc a l).Pairwise (fun x y => |y.deviation| ≤ |x.deviation|) := by
  induction l with
  | nil => simp [insertDesc]
  | cons b t ih =>
      rw [insertDesc]
      cases hl with
      | cons hb ht =>
        by_cases h : |b.deviation| ≤ |a.deviation|
        · rw [if_pos h]
          refine List.Pairwise.cons ?_ (List.Pairwise.cons hb ht)
          intro x hx
          rcases List.mem_cons.mp hx with rfl | hx
          · exact h
          · exact le_trans (hb x hx) h
        · rw [if_neg h]
          refine List.Pairwise.cons ?_ (ih ht)
          intro x hx
          rcases mem_insertDesc.mp hx with rfl | hx
          · exact le_of_lt (not_le.mp h)
          · exact hb x hx

theorem sortAnomalies_sorted (l : List Anomaly) :
    (sortAnomalies l).Pairwise (fun x y => |y.deviation| ≤ |x.deviation|) := by
  induction l with
  | nil => exact List.Pairwise.nil
  | cons a t ih => exact insertDesc_sorted a _ ih

theorem assignRanks_length (k : ℕ) (l : List Anomaly) :
    (assignRanks k l).length = l.length := by
  induction l generalizing k with
  | nil => rfl
  | cons a t ih => simp [assignRanks, ih]

theorem assignRanks_map_rank (k : ℕ) (l : List Anomaly) :
    (assignRanks k l).map (fun a => a.rank) = List.range' k l.length := by
  induction l generalizing k with
  | nil => rfl
  | cons a t ih => simp [assignRanks, List.range', ih]

theorem assignRanks_map_signal (k : ℕ) (l : List Anomaly) :
    (assignRanks k l).map (fun a => a.signal) = l.map (fun a => a.signal) := by
  induction l generalizing k with
  | nil => rfl
  | cons a t ih => simp [assignRanks, ih]

theorem assignRanks_map_deviation (k : ℕ) (l : List Anomaly) :
    (assignRanks k l).map (fun a => a.deviation) = l.map (fun a => a.deviation) := by
  induction l generalizing k with
  | nil => rfl
  | cons a t ih => simp [assignRanks, ih]

theorem assignRanks_pairwise (k : ℕ) (l : List Anomaly)
    (hl : l.Pairwise (fun x y => |y.deviation| ≤ |x.deviation|)) :
    (assignRanks k l).Pairwise (fun x y => |y.deviation| ≤ |x.deviation|) := by
  induction l generalizing k with
  | nil => exact List.Pairwise.nil
  | cons a t ih =>
      cases hl with
      | cons ha ht =>
        refine List.Pairwise.cons ?_ (ih (k + 1) ht)
        intro x hx
        have : x.deviation ∈ (assignRanks (k + 1) t).map (fun a => a.deviation) :=
          List.mem_map_of_mem _ hx
        rw [assignRanks_map_deviation] at this
        obtain ⟨y, hy, hxy⟩ := List.mem_map.mp this
        have := ha y hy
        rw [hxy] at this
        exact this

/-- Claim C9: in every `run_detector` result the anomaly list is sorted
in descending order of absolute (reported) percentage deviation, and
the `rank` fields are exactly `1, 2, …` in list order, i.e. each
anomaly's rank is its 1-based position in the sorted list. -/
theorem detector_anomalies_ranked (baseline : BaselineMap)
    (observed : List (String × ℚ)) :
    ((runDetector baseline observed).anomalies).Pairwise
      (fun a b => |b.deviation| ≤ |a.deviation|) ∧
    ((runDetector baseline observed).anomalies).map (fun a => a.rank) =
      List.range' 1 ((runDetector baseline observed).anomalies).length := by
  unfold runDetector
  dsimp only
  refine ⟨assignRanks_pairwise 1 _ (sortAnomalies_sorted _), ?_⟩
  rw [assignRanks_map_rank, assignRanks_length]

/-- Claim C1 (refuted as stated): the signal `tb_alu_secure.seed` is in
the observed map with the nonzero value 1 and absent from the (empty)
baseline map, yet `run_detector` returns an empty anomaly list — the
static testbench filter drops it before the zero-baseline substitution
is ever reached. -/
theorem zero_baseline_counterexample :
    ([] : BaselineMap).lookup "tb_alu_secure.seed" = none ∧
    ("tb_alu_secure.seed", (1 : ℚ)) ∈ [("tb_alu_secure.seed", (1 : ℚ))] ∧
    (1 : ℚ) ≠ 0 ∧
    (runDetector [] [("tb_alu_secure.seed", (1 : ℚ))]).anomalies = [] :=
  ⟨rfl, List.mem_singleton.mpr rfl, one_ne_zero, rfl⟩

/-- Claim C1 (amended): for every signal of the observed map that
survives the static signal filter (it is not a `tb_alu_secure.seed*` or
`tb_alu_secure.result_trojan*` testbench artifact and not a `u_trojan`
structural internal without `shadow_`) and is absent from the baseline
map, the substituted baseline is `{mean 0, std 0, threshold 0}`, and
any positive observed value for it is flagged: the signal appears in
the returned anomalies list. -/
theorem zero_baseline_always_flagged (baseline : BaselineMap)
    (observed : List (String × ℚ)) (signal : String) (obs : ℚ)
    (hmem : (signal, obs) ∈ observed)
    (habs : baseline.lookup signal = none)
    (hfil : signalFiltered signal = false)
    (hpos : 0 < obs) :
    (effectiveEntry baseline signal).1 = ⟨0, 0, some 0⟩ ∧
    signal ∈ ((runDetector baseline observed).anomalies).map
      (fun a => a.signal) := by
  constructor
  · unfold effectiveEntry
    rw [habs]
  · have hanom : anomalyFor baseline signal obs =
        some { signal := signal
               observed := pyTrunc obs
               mean := pyRound 0 3
               deviation := pyRound (deviationPct 0 obs) 2
               z_score := pyRound (zScoreOf 0 0 obs) 2
               cls := if strContains signal "shadow_" then "trojan_internal"
                      else "propagated"
               rank := 0 } := by
      unfold anomalyFor
      rw [hfil]
      unfold effectiveEntry
      rw [habs]
      dsimp only
      rw [show exceedsThreshold (some 0) obs = true by
        simp [exceedsThreshold, hpos]]
      simp
    have hraw : _ ∈ rawAnomalies baseline observed :=
      List.mem_filterMap.mpr ⟨(signal, obs), hmem, hanom⟩
    unfold runDetector
    dsimp only
    rw [assignRanks_map_signal]
    exact List.mem_map.mpr ⟨_, mem_sortAnomalies.mpr hraw, rfl⟩

theorem zero_baseline_always_flagged_witness :
    (effectiveEntry [] "s").1 = ⟨0, 0, some 0⟩ ∧
    "s" ∈ ((runDetector [] [("s", (1 : ℚ))]).anomalies).map
      (fun a => a.signal) :=
  zero_baseline_always_flagged [] [("s", (1 : ℚ))] "s" 1
    (List.mem_singleton.mpr rfl) rfl rfl one_pos

/-- Claim C10: whenever the effective baseline mean of a processed
signal is not strictly positive — which includes every signal absent
from the baseline map, whose substituted mean is 0 — the percentage
deviation is exactly 100 for a positive observation and exactly 0 for a
zero observation; and `run_detector`'s own decision flag
`trojan_detected` is true exactly when the anomalies list is
non-empty. -/
theorem zero_mean_deviation_convention :
    (∀ mean obs : ℚ, mean ≤ 0 →
      (0 < obs → deviationPct mean obs = 100) ∧
      (obs = 0 → deviationPct mean obs = 0)) ∧
    (∀ (baseline : BaselineMap) (signal : String),
      baseline.lookup signal = none →
      ((effectiveEntry baseline signal).1).mean = 0) ∧
    (∀ (baseline : BaselineMap) (observed : List (String × ℚ)),
      (runDetector baseline observed).decision.trojan_detected = true ↔
        (runDetector baseline observed).anomalies ≠ []) := by
  refine ⟨fun mean obs hm => ?_, fun baseline signal h => ?_,
    fun baseline observed => ?_⟩
  · unfold deviationPct
    rw [if_neg (not_lt.mpr hm)]
    constructor
    · intro h; rw [if_pos h]
    · intro h; subst h; rw [if_neg (lt_irrefl 0)]
  · unfold effectiveEntry
    rw [h]
  · unfold runDetector
    dsimp only
    rw [decide_eq_true_iff]
    exact List.length_pos

theorem zero_mean_deviation_convention_witness :
    deviationPct 0 5 = 100 ∧ deviationPct 0 0 = 0 ∧
    ((effectiveEntry [] "s").1).mean = 0 :=
  ⟨(zero_mean_deviation_convention.1 0 5 le_rfl).1 (by norm_num),
   (zero_mean_deviation_convention.1 0 0 le_rfl).2 rfl,
   zero_mean_deviation_convention.2.1 [] "s" rfl⟩

/-- Claim C4: the global-activity override is one-directional.  With
clean total `T` and observed total `O = sum(toggles.values())`:
`O > 1.5·T` forces the final `trojan_detected` to true (whatever the
per-signal outcome, including an empty anomaly list); `O ≤ 1.5·T`
leaves the `run_detector` decision completely unchanged; and a positive
per-signal verdict is never flipped to negative. -/
theorem global_override_one_directional (baseline : BaselineMap)
    (toggles : List (String × ℚ)) (T : ℚ) :
    ((3 / 2 : ℚ) * T < (toggles.map Prod.snd).sum →
      (analysisDecision baseline toggles (some T)).trojan_detected = true) ∧
    ((toggles.map Prod.snd).sum ≤ (3 / 2 : ℚ) * T →
      analysisDecision baseline toggles (some T) =
        (runDetector baseline toggles).decision) ∧
    ((runDetector baseline toggles).decision.trojan_detected = true →
      (analysisDecision baseline toggles (some T)).trojan_detected = true) := by
  unfold analysisDecision applyGlobalOverride
  dsimp only
  refine ⟨fun h => ?_, fun h => ?_, fun h => ?_⟩
  · rw [if_pos h]
  · rw [if_neg (not_lt.mpr h)]
  · by_cases hc : (3 / 2 : ℚ) * T < (toggles.map Prod.snd).sum
    · rw [if_pos hc]
    · rw [if_neg hc]; exact h

theorem global_override_one_directional_witness :
    (analysisDecision [] [("tb_alu_secure.seed", (10 : ℚ))]
      (some 1)).trojan_detected = true ∧
    analysisDecision [] [("tb_alu_secure.seed", (10 : ℚ))] (some 100) =
      (runDetector [] [("tb_alu_secure.seed", (10 : ℚ))]).decision ∧
    (runDetector [] [("tb_alu_secure.seed", (10 : ℚ))]).anomalies = [] :=
  ⟨(global_override_one_directional [] [("tb_alu_secure.seed", (10 : ℚ))]
      1).1 (by norm_num),
   (global_override_one_directional [] [("tb_alu_secure.seed", (10 : ℚ))]
      100).2.1 (by norm_num),
   rfl⟩

/-! ### Welford-recurrence lemmas for the convergence tracker -/

theorem sqDevSum_expand (xs : List ℚ) (c : ℚ) :
    sqDevSum xs c =
      (xs.map fun x => x ^ 2).sum - 2 * c * xs.sum + (xs.length : ℚ) * c ^ 2 := by
  induction xs with
  | nil => simp [sqDevSum]
  | cons a t ih =>
      simp only [sqDevSum, List.map_cons, List.sum_cons, List.length_cons] at ih ⊢
      rw [ih]
      push_cast
      ring

theorem meanSpec_append (xs : List ℚ) (v : ℚ) :
    meanSpec (xs ++ [v]) = meanSpec xs + (v - meanSpec xs) / ((xs.length : ℚ) + 1) := by
  rcases eq_or_ne xs [] with rfl | hne
  · simp [meanSpec]
  · have hn : (xs.length : ℚ) ≠ 0 :=
      Nat.cast_ne_zero.mpr (List.length_pos.mpr hne).ne'
    have hn1 : (xs.length : ℚ) + 1 ≠ 0 := by positivity
    simp only [meanSpec, List.sum_append, List.length_append, List.sum_cons,
      List.sum_nil, List.length_cons, List.length_nil]
    push_cast
    field_simp
    ring

theorem m2Spec_append (xs : List ℚ) (v : ℚ) :
    m2Spec (xs ++ [v]) =
      m2Spec xs + (v - meanSpec xs) * (v - meanSpec (xs ++ [v])) := by
  rcases eq_or_ne xs [] with rfl | hne
  · simp [m2Spec, sqDevSum, meanSpec]
  · have hn : (xs.length : ℚ) ≠ 0 :=
      Nat.cast_ne_zero.mpr (List.length_pos.mpr hne).ne'
    have hn1 : (xs.length : ℚ) + 1 ≠ 0 := by positivity
    rw [m2Spec, m2Spec, sqDevSum_expand, sqDevSum_expand, meanSpec_append]
    simp only [meanSpec, List.sum_append, List.length_append, List.map_append,
      List.sum_cons, List.sum_nil, List.map_cons, List.map_nil,
      List.length_cons, List.length_nil]
    push_cast
    field_simp
    ring

theorem update_welford (xs : List ℚ) (t : ConvergenceTracker)
    (hc : t.count = xs.length) (hm : t.mean = meanSpec xs)
    (h2 : t.m2 = m2Spec xs) (v : ℚ) :
    (t.update v).count = (xs ++ [v]).length ∧
    (t.update v).mean = meanSpec (xs ++ [v]) ∧
    (t.update v).m2 = m2Spec (xs ++ [v]) := by
  unfold ConvergenceTracker.update
  dsimp only
  have hmean : t.mean + (v - t.mean) / ((t.count : ℚ) + 1) = meanSpec (xs ++ [v]) := by
    rw [hm, hc, meanSpec_append]
  refine ⟨by simp [hc], ?_, ?_⟩
  · rw [← hmean]; push_cast [hc]; ring_nf
  · rw [m2Spec_append, ← h2, ← hm, ← hmean]
    push_cast [hc]
    ring_nf

theorem foldl_update_welford (t0 : ConvergenceTracker) (hc : t0.count = 0)
    (hm : t0.mean = 0) (h2 : t0.m2 = 0) (xs : List ℚ) :
    (xs.foldl ConvergenceTracker.update t0).count = xs.length ∧
    (xs.foldl ConvergenceTracker.update t0).mean = meanSpec xs ∧
    (xs.foldl ConvergenceTracker.update t0).m2 = m2Spec xs := by
  induction xs using List.reverseRecOn with
  | nil =>
      simp only [List.foldl_nil]
      refine ⟨hc, ?_, ?_⟩
      · rw [hm]; simp [meanSpec]
      · rw [h2]; simp [m2Spec, sqDevSum]
  | append_singleton xs v ih =>
      rw [List.foldl_append]
      obtain ⟨ihc, ihm, ih2⟩ := ih
      exact update_welford xs _ ihc ihm ih2 v

/-- Claim C6: for every sequence of samples of length at least two fed
to `ConvergenceTracker.update` (starting from a fresh tracker), the
tracker's running `mean` equals the direct arithmetic mean of the
sequence and `variance` equals the direct two-pass sample variance with
the `N−1` divisor — exactly, over the rationals. -/
theorem online_stats_match_two_pass (meps veps : ℚ) (sb : ℕ) (xs : List ℚ)
    (hlen : 2 ≤ xs.length) :
    (xs.foldl ConvergenceTracker.update (freshTracker meps veps sb)).mean =
      meanSpec xs ∧
    (xs.foldl ConvergenceTracker.update (freshTracker meps veps sb)).variance =
      varSpec xs := by
  obtain ⟨hc, hm, h2⟩ := foldl_update_welford (freshTracker meps veps sb)
    rfl rfl rfl xs
  refine ⟨hm, ?_⟩
  unfold ConvergenceTracker.variance varSpec
  rw [hc, h2]

theorem online_stats_match_two_pass_witness :
    (([1, 2, 6] : List ℚ).foldl ConvergenceTracker.update
      (freshTracker 1 1 1)).mean = 3 ∧
    (([1, 2, 6] : List ℚ).foldl ConvergenceTracker.update
      (freshTracker 1 1 1)).variance = 7 := by
  obtain ⟨hm, hv⟩ := online_stats_match_two_pass 1 1 1 [1, 2, 6] (by norm_num)
  rw [hm, hv]
  constructor
  · norm_num [meanSpec]
  · norm_num [varSpec, m2Spec, sqDevSum, meanSpec]

/-- Relation between a tracker state and the trace that produced it:
the running statistics are the closed forms over the samples fed so
far, the stability counter is the specification streak over the
recorded checkpoint history, and the previous-checkpoint fields hold
the most recent recorded checkpoint. -/
def TrackerInv (meps veps : ℚ) (sb : ℕ) (xs : List ℚ) (h : List (ℚ × ℚ))
    (t : ConvergenceTracker) : Prop :=
  t.mean_eps = meps ∧ t.var_eps = veps ∧ t.stable_batches_required = sb ∧
  t.count = xs.length ∧ t.mean = meanSpec xs ∧ t.m2 = m2Spec xs ∧
  t.stable_count = streakSpec meps veps h ∧
  t.prev_mean = h.head?.map Prod.fst ∧
  t.prev_variance = h.head?.map Prod.snd

theorem update_inv (meps veps : ℚ) (sb : ℕ) (xs : List ℚ)
    (h : List (ℚ × ℚ)) (t : ConvergenceTracker)
    (ht : TrackerInv meps veps sb xs h t) (v : ℚ) :
    TrackerInv meps veps sb (xs ++ [v]) h (t.update v) := by
  obtain ⟨he1, he2, he3, hc, hm, h2, hs, hp1, hp2⟩ := ht
  obtain ⟨hc', hm', h2'⟩ := update_welford xs t hc hm h2 v
  exact ⟨he1, he2, he3, hc', hm', h2', hs, hp1, hp2⟩

theorem check_inv (meps veps : ℚ) (sb : ℕ) (xs : List ℚ)
    (h : List (ℚ × ℚ)) (t : ConvergenceTracker)
    (ht : TrackerInv meps veps sb xs h t) :
    TrackerInv meps veps sb xs
      (if 2 ≤ xs.length then (meanSpec xs, varSpec xs) :: h else h)
      (t.checkConvergence).2 := by
  obtain ⟨he1, he2, he3, hc, hm, h2, hs, hp1, hp2⟩ := ht
  have hvar : t.variance = varSpec xs := by
    unfold ConvergenceTracker.variance varSpec
    rw [hc, h2]
  by_cases hcnt : t.count < 2
  · have hres : t.checkConvergence = (false, t) := by
      unfold ConvergenceTracker.checkConvergence
      rw [if_pos hcnt]
    rw [hres, if_neg (by omega : ¬2 ≤ xs.length)]
    exact ⟨he1, he2, he3, hc, hm, h2, hs, hp1, hp2⟩
  · have hxs2 : 2 ≤ xs.length := by omega
    rw [if_pos hxs2]
    cases hh : h with
    | nil =>
        have hres : (t.checkConvergence).2 =
            { t with prev_mean := some t.mean
                     prev_variance := some t.variance
                     stable_count := 0 } := by
          unfold ConvergenceTracker.checkConvergence
          rw [if_neg hcnt]
          rw [hp1, hp2, hh]
          rfl
        rw [hres]
        refine ⟨he1, he2, he3, hc, hm, h2, rfl, ?_, ?_⟩
        · dsimp only
          rw [hm]
          rfl
        · dsimp only
          rw [hvar]
          rfl
    | cons c rest =>
        have hpm : t.prev_mean = some c.1 := by rw [hp1, hh]; rfl
        have hpv : t.prev_variance = some c.2 := by rw [hp2, hh]; rfl
        have hres : (t.checkConvergence).2 =
            { t with prev_mean := some t.mean
                     prev_variance := some t.variance
                     stable_count :=
                       if |t.mean - c.1| < t.mean_eps ∧
                          |t.variance - c.2| < t.var_eps
                       then t.stable_count + 1 else 0 } := by
          unfold ConvergenceTracker.checkConvergence
          rw [if_neg hcnt]
          rw [hpm, hpv]
        rw [hres]
        refine ⟨he1, he2, he3, hc, hm, h2, ?_, ?_, ?_⟩
        · dsimp only
          rw [hm, hvar, he1, he2, hs, hh]
          rfl
        · dsimp only
          rw [hm]
          rfl
        · dsimp only
          rw [hvar]
          rfl

theorem runOps_inv (meps veps : ℚ) (sb : ℕ) :
    ∀ (ops : List TrackerOp) (xs : List ℚ) (h : List (ℚ × ℚ))
      (t : ConvergenceTracker), TrackerInv meps veps sb xs h t →
      TrackerInv meps veps sb (xs ++ updatesOf ops) (histAux ops xs h)
        (runOps t ops) := by
  intro ops
  induction ops with
  | nil =>
      intro xs h t ht
      simpa [runOps, updatesOf, histAux] using ht
  | cons op rest ih =>
      intro xs h t ht
      cases op with
      | update v =>
          have := ih (xs ++ [v]) h (t.update v) (update_inv _ _ _ _ _ _ ht v)
          simpa [runOps, updatesOf, histAux, List.filterMap_cons,
            List.append_assoc] using this
      | check =>
          have := ih xs
            (if 2 ≤ xs.length then (meanSpec xs, varSpec xs) :: h else h)
            (t.checkConvergence).2 (check_inv _ _ _ _ _ _ ht)
          simpa [runOps, updatesOf, histAux, List.filterMap_cons] using this

/-- A fresh tracker satisfies the invariant for the empty trace. -/
theorem freshTracker_inv (meps veps : ℚ) (sb : ℕ) :
    TrackerInv meps veps sb [] [] (freshTracker meps veps sb) := by
  refine ⟨rfl, rfl, rfl, rfl, ?_, ?_, rfl, rfl, rfl⟩
  · simp [freshTracker, meanSpec]
  · simp [freshTracker, m2Spec, sqDevSum]

/-- For a tracker with at least two samples, `check_convergence`
returns exactly the comparison of the required streak against the
post-call stability counter (provided the required count is positive,
as the constructor guarantees). -/
theorem check_result (t : ConvergenceTracker) (h2 : 2 ≤ t.count)
    (hsb : 0 < t.stable_batches_required) :
    (t.checkConvergence).1 =
      decide (t.stable_batches_required ≤ (t.checkConvergence).2.stable_count) := by
  unfold ConvergenceTracker.checkConvergence
  rw [if_neg (by omega : ¬t.count < 2)]
  rcases t.prev_mean with - | pm <;> rcases t.prev_variance with - | pv <;>
    dsimp only <;>
    first
      | rfl
      | (symm; simp [decide_eq_false_iff_not]; omega)

/-- Claim C5: for every interleaved sequence of `update` and
`check_convergence` calls on a validly-configured tracker, a
`check_convergence` call with at least two samples returns true exactly
when the streak of consecutive usable checks each within both
tolerances of the previous check's `(mean, variance)` checkpoint — a
streak that any single out-of-tolerance check resets to zero, as
captured by `streakSpec` — has reached `stable_batches`; the call seeds
the checkpoint with the current statistics; a call with fewer than two
samples returns false and leaves the tracker unchanged; and the first
usable check (empty checkpoint history) never returns true. -/
theorem check_convergence_streak (meps veps : ℚ) (sb : ℕ)
    (hmeps : 0 < meps) (hveps : 0 < veps) (hsb : 0 < sb)
    (ops : List TrackerOp) :
    (2 ≤ (updatesOf ops).length →
      ((runOps (freshTracker meps veps sb) ops).checkConvergence).1 =
        decide (sb ≤ streakSpec meps veps
          ((meanSpec (updatesOf ops), varSpec (updatesOf ops)) ::
            histSpec ops)) ∧
      ((runOps (freshTracker meps veps sb) ops).checkConvergence).2.prev_mean =
        some (meanSpec (updatesOf ops)) ∧
      ((runOps (freshTracker meps veps sb)
          ops).checkConvergence).2.prev_variance =
        some (varSpec (updatesOf ops))) ∧
    ((updatesOf ops).length < 2 →
      ((runOps (freshTracker meps veps sb) ops).checkConvergence).1 = false ∧
      ((runOps (freshTracker meps veps sb) ops).checkConvergence).2 =
        runOps (freshTracker meps veps sb) ops) ∧
    (histSpec ops = [] →
      ((runOps (freshTracker meps veps sb) ops).checkConvergence).1 =
        false) := by
  have hinv := runOps_inv meps veps sb ops [] [] (freshTracker meps veps sb)
    (freshTracker_inv meps veps sb)
  rw [List.nil_append] at hinv
  have hhist : histAux ops [] [] = histSpec ops := rfl
  rw [hhist] at hinv
  have hnew := check_inv meps veps sb (updatesOf ops) (histSpec ops) _ hinv
  obtain ⟨he1, he2, he3, hc, hm', h2', hs, hp1, hp2⟩ := hinv
  have part1 : 2 ≤ (updatesOf ops).length →
      ((runOps (freshTracker meps veps sb) ops).checkConvergence).1 =
        decide (sb ≤ streakSpec meps veps
          ((meanSpec (updatesOf ops), varSpec (updatesOf ops)) ::
            histSpec ops)) ∧
      ((runOps (freshTracker meps veps sb) ops).checkConvergence).2.prev_mean =
        some (meanSpec (updatesOf ops)) ∧
      ((runOps (freshTracker meps veps sb)
          ops).checkConvergence).2.prev_variance =
        some (varSpec (updatesOf ops)) := by
    intro hlen
    rw [if_pos hlen] at hnew
    obtain ⟨-, -, -, -, -, -, hs', hp1', hp2'⟩ := hnew
    have h2c : 2 ≤ (runOps (freshTracker meps veps sb) ops).count := by
      rw [hc]; exact hlen
    have hres := check_result _ h2c (by rw [he3]; exact hsb)
    rw [he3, hs'] at hres
    refine ⟨hres, ?_, ?_⟩
    · rw [hp1']; rfl
    · rw [hp2']; rfl
  have part2 : (updatesOf ops).length < 2 →
      ((runOps (freshTracker meps veps sb) ops).checkConvergence).1 = false ∧
      ((runOps (freshTracker meps veps sb) ops).checkConvergence).2 =
        runOps (freshTracker meps veps sb) ops := by
    intro hlen
    have : (runOps (freshTracker meps veps sb) ops).checkConvergence =
        (false, runOps (freshTracker meps veps sb) ops) := by
      unfold ConvergenceTracker.checkConvergence
      rw [if_pos (by omega : (runOps (freshTracker meps veps sb) ops).count < 2)]
    rw [this]
    exact ⟨rfl, rfl⟩
  refine ⟨part1, part2, fun hh => ?_⟩
  by_cases hlen : 2 ≤ (updatesOf ops).length
  · have := (part1 hlen).1
    rw [hh] at this
    rw [this]
    simp only [streakSpec, decide_eq_false_iff_not]
    omega
  · exact (part2 (by omega)).1

theorem check_convergence_streak_witness :
    ((runOps (freshTracker 1 1 2)
      [.update 1, .update 1, .check, .check, .check]).checkConvergence).1 =
      true := by
  have h := check_convergence_streak 1 1 2 one_pos one_pos (by norm_num)
    [.update 1, .update 1, .check, .check, .check]
  have hlen : 2 ≤ (updatesOf
      [TrackerOp.update 1, .update 1, .check, .check, .check]).length := by
    norm_num [updatesOf, List.filterMap_cons]
  rw [(h.1 hlen).1]
  norm_num [updatesOf, List.filterMap_cons, histSpec, histAux, streakSpec,
    meanSpec, varSpec, m2Spec, sqDevSum]

/-- Claim C7: `compute_z_score` raises exactly when the baseline
variance is not strictly positive — in that case it never returns any
value, in particular not zero — and for a strictly positive variance it
returns exactly `(observed − mean) / sqrt(variance)`. -/
theorem z_score_requires_positive_variance (observed : ℚ)
    (b : BaselineModel) :
    ((∃ e, compute_z_score observed b = .error e) ↔ ¬0 < b.variance) ∧
    (0 < b.variance →
      compute_z_score observed b =
        .ok (((observed : ℝ) - (b.mean : ℝ)) / Real.sqrt (b.variance : ℝ))) ∧
    (¬0 < b.variance → ∀ x : ℝ, compute_z_score observed b ≠ .ok x) := by
  unfold compute_z_score
  by_cases hv : b.variance ≤ 0
  · rw [if_pos hv]
    refine ⟨iff_of_true ⟨_, rfl⟩ (not_lt.mpr hv), fun h => ?_, fun _ x h => ?_⟩
    · exact absurd h (not_lt.mpr hv)
    · exact Except.noConfusion h
  · rw [if_neg hv]
    refine ⟨iff_of_false ?_ (not_not_intro (not_le.mp hv)), fun _ => rfl,
      fun h => absurd (not_le.mp hv) h⟩
    rintro ⟨e, he⟩
    exact Except.noConfusion he

theorem z_score_requires_positive_variance_witness :
    compute_z_score 5 ⟨1, 4, 2, true, []⟩ =
      .ok ((((5 : ℚ) : ℝ) - ((1 : ℚ) : ℝ)) / Real.sqrt ((4 : ℚ) : ℝ)) :=
  (z_score_requires_positive_variance 5 ⟨1, 4, 2, true, []⟩).2.1 (by norm_num)

/-- Claim C8: serializing a valid global baseline model with `as_dict`
yields exactly the five fields `mean, variance, samples, converged,
metadata` (in that order), and `from_dict` reconstructs an identical
model from it; applied to any dictionary missing one of the five
required fields, `from_dict` raises an error naming a field that is
indeed missing (the first missing one in the required order). -/
theorem baseline_dict_roundtrip :
    (∀ m : BaselineModel, 1 < m.samples → 0 ≤ m.variance →
      m.converged = true →
      (m.as_dict.map Prod.fst = requiredFields ∧
       BaselineModel.from_dict m.as_dict = .ok m)) ∧
    (∀ (d : PyDict) (f : String), f ∈ requiredFields → d.lookup f = none →
      ∃ g, g ∈ requiredFields ∧ d.lookup g = none ∧
        BaselineModel.from_dict d =
          .error ("Missing required field: " ++ g)) := by
  constructor
  · rintro ⟨mm, mv, ms, mc, mmeta⟩ h1 h2 h3
    dsimp only at h1 h2 h3
    subst h3
    constructor
    · simp [BaselineModel.as_dict, requiredFields]
    · unfold BaselineModel.from_dict
      rw [show requiredFields.find?
          (fun f => ((BaselineModel.as_dict ⟨mm, mv, ms, true, mmeta⟩).lookup
            f).isNone) = none by
        simp [requiredFields, BaselineModel.as_dict, List.find?, List.lookup]]
      rw [show dictGet (BaselineModel.as_dict ⟨mm, mv, ms, true, mmeta⟩)
            "mean" = PyVal.num mm from rfl,
          show dictGet (BaselineModel.as_dict ⟨mm, mv, ms, true, mmeta⟩)
            "variance" = PyVal.num mv from rfl,
          show dictGet (BaselineModel.as_dict ⟨mm, mv, ms, true, mmeta⟩)
            "samples" = PyVal.num ms from rfl,
          show dictGet (BaselineModel.as_dict ⟨mm, mv, ms, true, mmeta⟩)
            "converged" = PyVal.bool true from rfl,
          show dictGet (BaselineModel.as_dict ⟨mm, mv, ms, true, mmeta⟩)
            "metadata" = PyVal.meta mmeta from rfl]
      dsimp only [PyVal.asNum, PyVal.asBool, PyVal.asMeta]
      unfold BaselineModel.create
      rw [if_neg (not_le.mpr h1), if_neg (not_lt.mpr h2),
        if_neg (by simp : ¬(true : Bool) = false)]
  · intro d f hf hnone
    have hpf : ((d.lookup f).isNone : Bool) = true := by
      rw [hnone]; rfl
    have hsome : (requiredFields.find?
        (fun x => ((d.lookup x).isNone : Bool))).isSome = true :=
      List.find?_isSome.mpr ⟨f, hf, hpf⟩
    obtain ⟨g, hg⟩ := Option.isSome_iff_exists.mp hsome
    refine ⟨g, List.mem_of_find?_eq_some hg, ?_, ?_⟩
    · have hpg := List.find?_some hg
      exact Option.isNone_iff_eq_none.mp hpg
    · unfold BaselineModel.from_dict
      rw [hg]

theorem baseline_dict_roundtrip_witness :
    (BaselineModel.as_dict ⟨1, 4, 2, true, []⟩).map Prod.fst =
      requiredFields ∧
    BaselineModel.from_dict (BaselineModel.as_dict ⟨1, 4, 2, true, []⟩) =
      .ok ⟨1, 4, 2, true, []⟩ :=
  baseline_dict_roundtrip.1 ⟨1, 4, 2, true, []⟩ (by norm_num) (by norm_num)
    rfl

end GrayMatter
